import Mathlib

/-!
Shallow embedding of `polaris_branch_setter.py` (the Polaris default-branch
setter script) together with proofs about its operations.

Modelling conventions:
* Python dicts holding JSON branch representations are modelled as
  association lists `List (String × Json)`; `dict.get(k, d)` becomes
  `Json.getD`, `k in d` becomes `lookup` returning `some`.
* The remote Polaris service is modelled as a pure environment `Env`
  (portfolios containing applications containing projects containing
  branch objects).  Server-side `_filter=name=="..."` queries are modelled
  as exact-name filtering and `_limit=n` as `List.take n`, per the API
  contract the script relies on.
* Every operation that talks to the network returns its result paired with
  the list of HTTP requests (and, for the poller, sleeps) it performs, in
  order, so that request-counting claims can be stated exactly.
* Exit codes are naturals; `main` returns the exit code with the full
  action trace of the run.
-/

namespace Polaris

/-- JSON values, as carried by the Python dicts in the script.  The script
only ever reads scalar fields and the `labelIds` array of identifier
strings, so arrays of strings suffice as the non-scalar case. -/
inductive Json where
  | str : String → Json
  | boolean : Bool → Json
  | num : Int → Json
  | strArr : List String → Json
  | null : Json
  deriving DecidableEq, Repr

/-- A branch representation as returned by the remote service: a JSON
object, kept as an association list of fields (a Python dict). -/
abbrev BranchObj := List (String × Json)

/-- Python `d[k]` / `k in d` on a dict: first binding of the key. -/
def lookupField (d : BranchObj) (k : String) : Option Json :=
  match d with
  | [] => none
  | (k2, v) :: rest => if k2 = k then some v else lookupField rest k

/-- Python `d.get(k, default)`. -/
def Json.getD (d : BranchObj) (k : String) (default : Json) : Json :=
  match lookupField d k with
  | some v => v
  | none => default

/-- `branch_data.get("name")` style access expecting a string. -/
def getStrField (d : BranchObj) (k : String) : Option String :=
  match lookupField d k with
  | some (Json.str s) => some s
  | _ => none

/-- `branch.get("isDefault", False)` : the boolean field with default. -/
def getBoolFieldD (d : BranchObj) (k : String) (default : Bool) : Bool :=
  match lookupField d k with
  | some (Json.boolean b) => b
  | _ => default

/-- The PATCH payload `set_default_branch` builds from the fetched branch
representation (`patch_payload` in the source): a fixed whitelist of
writable fields taken from `branch_data` with defaults when absent,
`isDefault` forced to `true`, and `labelIds` appended only when present. -/
def buildPatchPayload (branch_data : BranchObj) (branch_name : String) : BranchObj :=
  let base : BranchObj := [
    ("name", Json.getD branch_data "name" (Json.str branch_name)),
    ("description", Json.getD branch_data "description" (Json.str "")),
    ("source", Json.getD branch_data "source" (Json.str "CI")),
    ("isDefault", Json.boolean true),
    ("autoDeleteSetting", Json.getD branch_data "autoDeleteSetting" (Json.boolean false)),
    ("autoDeleteSettingsCustomized",
      Json.getD branch_data "autoDeleteSettingsCustomized" (Json.boolean false)),
    ("branchRetentionPeriodSetting",
      Json.getD branch_data "branchRetentionPeriodSetting" (Json.num 0))]
  match lookupField branch_data "labelIds" with
  | some v => base ++ [("labelIds", v)]
  | none => base

/-- The whitelist of keys that can ever appear in the PATCH payload. -/
def payloadKeys : List String :=
  ["name", "description", "source", "isDefault", "autoDeleteSetting",
   "autoDeleteSettingsCustomized", "branchRetentionPeriodSetting", "labelIds"]

/-- The HTTP requests the script can issue, with the parameters the source
attaches (`_filter` name and `_limit` page caps where the code sends them). -/
inductive Request where
  | getPortfolios
  | getApplications (portfolioId : String) (nameFilter : String) (limit : Nat)
  | getProjects (portfolioId applicationId : String) (nameFilter : String) (limit : Nat)
  | getBranches (portfolioId applicationId projectId : String) (limit : Nat)
  | getBranch (portfolioId applicationId projectId branchId : String)
  | patchBranch (portfolioId applicationId projectId branchId : String) (payload : BranchObj)
  deriving DecidableEq, Repr

/-- An observable step of a run: an HTTP request or a timed sleep. -/
inductive Action where
  | req : Request → Action
  | sleep : Nat → Action
  deriving DecidableEq, Repr

/-- Whether an action is a PATCH request. -/
def Action.isPatch : Action → Bool
  | Action.req (Request.patchBranch _ _ _ _ _) => true
  | _ => false

/-- Whether an action is a branch-list GET. -/
def Action.isBranchListGet : Action → Bool
  | Action.req (Request.getBranches _ _ _ _) => true
  | _ => false

/-- A project record as stored remotely: id, name and its branch objects. -/
structure Project where
  id : String
  name : String
  branches : List BranchObj
  deriving DecidableEq, Repr

/-- An application record: id, name and contained projects. -/
structure Application where
  id : String
  name : String
  projects : List Project
  deriving DecidableEq, Repr

/-- A portfolio record: id, name and contained applications. -/
structure Portfolio where
  id : String
  name : String
  applications : List Application
  deriving DecidableEq, Repr

/-- The remote Polaris data the script queries during one run. -/
structure Env where
  portfolios : List Portfolio
  deriving DecidableEq, Repr

/-- A resolved project as `find_project_by_name` returns it: the project
dict annotated in memory with its parent portfolio and application ids. -/
structure FoundProject where
  portfolioId : String
  applicationId : String
  project : Project
  deriving DecidableEq, Repr

/-- Server-side application query
`GET /api/portfolios/{pid}/applications?_filter=name=="{an}"&_limit=10`:
exact-name filter, first 10 results. -/
def queryApplications (pf : Portfolio) (application_name : String) : List Application :=
  (pf.applications.filter (fun a => a.name = application_name)).take 10

/-- Server-side project query
`GET .../applications/{aid}/projects?_filter=name=="{pn}"&_limit=10`. -/
def queryProjects (a : Application) (project_name : String) : List Project :=
  (a.projects.filter (fun p => p.name = project_name)).take 10

/-- Inner loop of `find_project_by_name`: walk the applications returned
for one portfolio, querying each one's projects and returning the first
project found, together with the requests issued. -/
def searchApplications (portfolio_id : String) (project_name : String) :
    List Application → Option FoundProject × List Request
  | [] => (none, [])
  | a :: rest =>
    let r := Request.getProjects portfolio_id a.id project_name 10
    match queryProjects a project_name with
    | p :: _ => (some ⟨portfolio_id, a.id, p⟩, [r])
    | [] =>
      let res := searchApplications portfolio_id project_name rest
      (res.1, r :: res.2)

/-- Outer loop of `find_project_by_name`: walk all portfolios, querying
each one's applications (filtered by name) and searching them. -/
def searchPortfolios (application_name project_name : String) :
    List Portfolio → Option FoundProject × List Request
  | [] => (none, [])
  | pf :: rest =>
    let r := Request.getApplications pf.id application_name 10
    let inner := searchApplications pf.id project_name (queryApplications pf application_name)
    match inner.1 with
    | some f => (some f, r :: inner.2)
    | none =>
      let outer := searchPortfolios application_name project_name rest
      (outer.1, r :: (inner.2 ++ outer.2))

/-- `find_project_by_name(application_name, project_name)`: GET all
portfolios, then walk portfolio → application → project, returning the
first matching project annotated with its parent ids, or `none`. -/
def find_project_by_name (env : Env) (application_name project_name : String) :
    Option FoundProject × List Request :=
  let res := searchPortfolios application_name project_name env.portfolios
  (res.1, Request.getPortfolios :: res.2)

/-- Resolve a project's branch list by the three path identifiers, the way
the remote resolves `GET .../portfolios/{p}/applications/{a}/projects/{pr}/branches`;
`none` models a 404 (the request raising in `_make_request`). -/
def lookupBranchList (env : Env) (portfolio_id application_id project_id : String) :
    Option (List BranchObj) :=
  match env.portfolios.find? (fun pf => pf.id = portfolio_id) with
  | none => none
  | some pf =>
    match pf.applications.find? (fun a => a.id = application_id) with
    | none => none
    | some a =>
      match a.projects.find? (fun p => p.id = project_id) with
      | none => none
      | some p => some p.branches

/-- `get_project_branches`: one branch-list GET with `_limit=100`; the
`_items` of the response on success, and the empty list when the request
errors (the `except` clause swallowing the exception). -/
def get_project_branches (env : Env) (portfolio_id application_id project_id : String) :
    List BranchObj × List Request :=
  let r := Request.getBranches portfolio_id application_id project_id 100
  match lookupBranchList env portfolio_id application_id project_id with
  | some branches => (branches.take 100, [r])
  | none => ([], [r])

/-- The `for branch in branches: if branch['name'] == branch_name` loop of
`find_branch_by_name`: first branch whose `name` field equals the query. -/
def findBranchLoop (branch_name : String) : List BranchObj → Option BranchObj
  | [] => none
  | b :: rest =>
    if getStrField b "name" = some branch_name then some b
    else findBranchLoop branch_name rest

/-- `find_branch_by_name`: list the project's branches, then linearly scan
for an exact name match, returning `none` when absent. -/
def find_branch_by_name (env : Env) (portfolio_id application_id project_id branch_name : String) :
    Option BranchObj × List Request :=
  let pb := get_project_branches env portfolio_id application_id project_id
  (findBranchLoop branch_name pb.1, pb.2)

/-- Resolve one branch object by id, the way the remote resolves
`GET .../branches/{branchId}`; `none` models a 404. -/
def lookupBranchById (env : Env) (portfolio_id application_id project_id branch_id : String) :
    Option BranchObj :=
  match lookupBranchList env portfolio_id application_id project_id with
  | none => none
  | some branches => branches.find? (fun b => getStrField b "id" = some branch_id)

/-- `set_default_branch`: GET the branch's current representation, build
the PATCH payload from it, and PATCH it back; returns `false` (after only
the GET) when the fetch fails, since the `except` clause turns any
exception into a `False` return. -/
def set_default_branch (env : Env)
    (portfolio_id application_id project_id branch_id branch_name : String) :
    Bool × List Request :=
  let g := Request.getBranch portfolio_id application_id project_id branch_id
  match lookupBranchById env portfolio_id application_id project_id branch_id with
  | none => (false, [g])
  | some branch_data =>
    let payload := buildPatchPayload branch_data branch_name
    (true, [g, Request.patchBranch portfolio_id application_id project_id branch_id payload])

/-- Python truthiness of the identifier strings checked with
`if not all([portfolio_id, application_id, project_id])`. -/
def idsTruthy (portfolio_id application_id project_id : String) : Bool :=
  portfolio_id ≠ "" && application_id ≠ "" && project_id ≠ ""

/-- The `for attempt in range(max_attempts)` loop of
`wait_for_scan_completion`, with `remaining` attempts left: each attempt
re-runs the branch lookup; a hit returns `true` at once, otherwise the
loop sleeps 30 seconds between attempts (not after the last). -/
def waitLoop (env : Env) (portfolio_id application_id project_id branch_name : String) :
    Nat → Bool × List Action
  | 0 => (false, [])
  | remaining + 1 =>
    let fb := find_branch_by_name env portfolio_id application_id project_id branch_name
    match fb.1 with
    | some _ => (true, fb.2.map Action.req)
    | none =>
      if remaining = 0 then (false, fb.2.map Action.req)
      else
        let ws := waitLoop env portfolio_id application_id project_id branch_name remaining
        (ws.1, fb.2.map Action.req ++ Action.sleep 30 :: ws.2)

/-- `wait_for_scan_completion(api, project_data, branch_name, max_wait_minutes)`:
guard the project identifiers, then poll `max_attempts = max_wait_minutes * 2`
times at a fixed 30-second spacing. -/
def wait_for_scan_completion (env : Env) (found : FoundProject) (branch_name : String)
    (max_wait_minutes : Nat := 30) : Bool × List Action :=
  if idsTruthy found.portfolioId found.applicationId found.project.id then
    waitLoop env found.portfolioId found.applicationId found.project.id branch_name
      (max_wait_minutes * 2)
  else (false, [])

/-- The five environment variables `main` reads with `os.getenv` (absent
variable = `none`). -/
structure Config where
  server_url : Option String
  access_token : Option String
  application_name : Option String
  project_name : Option String
  branch_name : Option String
  deriving DecidableEq, Repr

/-- Python falsiness of an `os.getenv` result: unset, or the empty string. -/
def envFalsy : Option String → Bool
  | none => true
  | some s => s = ""

/-- The `not all([...])` validation over the five required variables. -/
def configMissing (cfg : Config) : Bool :=
  envFalsy cfg.server_url || envFalsy cfg.access_token || envFalsy cfg.application_name ||
    envFalsy cfg.project_name || envFalsy cfg.branch_name

/-- `main()`: the whole orchestration, returning the process exit code and
the ordered trace of HTTP requests and sleeps of the run. -/
def main (cfg : Config) (env : Env) : Nat × List Action :=
  if configMissing cfg then (1, [])
  else
    let application_name := cfg.application_name.getD ""
    let project_name := cfg.project_name.getD ""
    let branch_name := cfg.branch_name.getD ""
    let fp := find_project_by_name env application_name project_name
    match fp.1 with
    | none => (1, fp.2.map Action.req)
    | some found =>
      let t1 := fp.2.map Action.req
      if idsTruthy found.portfolioId found.applicationId found.project.id then
        let w := wait_for_scan_completion env found branch_name 30
        if w.1 then
          let fb :=
            find_branch_by_name env found.portfolioId found.applicationId found.project.id
              branch_name
          let t3 := fb.2.map Action.req
          match fb.1 with
          | none => (1, t1 ++ w.2 ++ t3)
          | some b =>
            if getBoolFieldD b "isDefault" false then (0, t1 ++ w.2 ++ t3)
            else
              match getStrField b "id" with
              | none => (1, t1 ++ w.2 ++ t3)
              | some branch_id =>
                let sd :=
                  set_default_branch env found.portfolioId found.applicationId
                    found.project.id branch_id branch_name
                ((if sd.1 then 0 else 1), t1 ++ w.2 ++ t3 ++ sd.2.map Action.req)
        else (1, t1 ++ w.2)
      else (1, t1)

/-- `server_url.rstrip('/')`: drop every trailing slash. -/
def rstripSlash (s : String) : String :=
  String.mk (((s.data.reverse).dropWhile (fun c => c = '/')).reverse)

/-- `endpoint.lstrip('/')`: drop every leading slash. -/
def lstripSlash (s : String) : String :=
  String.mk (s.data.dropWhile (fun c => c = '/'))

/-- `urljoin(base, rel)` as the script invokes it: the base always ends in
a single `/` and the relative reference carries no leading slash, so the
join resolves to plain concatenation. -/
def urljoinRel (base rel : String) : String := base ++ rel

/-- The URL `_make_request` targets: the constructor stores
`server_url.rstrip('/')` and each request joins it, plus `'/'`, with the
endpoint stripped of leading slashes. -/
def requestUrl (configured_server_url endpoint : String) : String :=
  urljoinRel (rstripSlash configured_server_url ++ "/") (lstripSlash endpoint)

/-- An HTTP response: status code, headers, body text. -/
structure HttpResponse where
  status : Nat
  headers : List (String × String)
  body : String
  deriving DecidableEq, Repr

/-- What one `requests.request` call can come back with: a response, or a
network-level failure (timeout, connection refused, DNS failure) raised as
a `RequestException` carrying no response. -/
inductive HttpOutcome where
  | response : HttpResponse → HttpOutcome
  | networkFailure : String → HttpOutcome
  deriving DecidableEq, Repr

/-- The diagnostic lines `_make_request` prints. -/
inductive LogEntry where
  | statusLine (code : Nat)
  | headerDump (hs : List (String × String))
  | bodyDump (b : String)
  | requestFailed
  deriving DecidableEq, Repr

/-- The error `_make_request` propagates to its caller. -/
inductive ApiError where
  | httpStatus (r : HttpResponse)
  | network (msg : String)
  deriving DecidableEq, Repr

/-- `response.raise_for_status()` raises exactly for 4xx and 5xx codes. -/
def raiseForStatus (r : HttpResponse) : Bool :=
  400 ≤ r.status && r.status < 600

/-- `_make_request` after the request resolves: log the status, dump
headers and body for any non-200 status, then `raise_for_status`; an
`HTTPError` is itself a `RequestException`, so the `except` clause logs
the failure with the response context and re-raises.  A network-level
failure is logged (without response context) and re-raised. -/
def make_request (outcome : HttpOutcome) : Except ApiError HttpResponse × List LogEntry :=
  match outcome with
  | HttpOutcome.networkFailure msg => (Except.error (ApiError.network msg), [LogEntry.requestFailed])
  | HttpOutcome.response r =>
    let initial := LogEntry.statusLine r.status ::
      (if r.status ≠ 200 then [LogEntry.headerDump r.headers, LogEntry.bodyDump r.body] else [])
    if raiseForStatus r then
      (Except.error (ApiError.httpStatus r),
        initial ++ [LogEntry.requestFailed, LogEntry.statusLine r.status,
          LogEntry.headerDump r.headers, LogEntry.bodyDump r.body])
    else (Except.ok r, initial)

/-- Spec-side description of the hierarchy walk: every (portfolio,
application, project) triple whose application and project names match the
query exactly, in traversal order, within the 10-result page the server
returns for each filtered query. -/
def matchingProjects (env : Env) (application_name project_name : String) :
    List FoundProject :=
  env.portfolios.flatMap (fun pf =>
    (queryApplications pf application_name).flatMap (fun a =>
      (queryProjects a project_name).map (fun p => FoundProject.mk pf.id a.id p)))

/-- Spec-side statement of `find_project`'s result: the first match in
traversal order, or `none`. -/
def firstMatchingProject (env : Env) (application_name project_name : String) :
    Option FoundProject :=
  (matchingProjects env application_name project_name).head?

/-- The action trace of a poll that times out over `n` attempts: `n`
identical lookup requests separated by 30-second sleeps. -/
def timeoutTrace (r : Request) : Nat → List Action
  | 0 => []
  | 1 => [Action.req r]
  | n + 2 => Action.req r :: Action.sleep 30 :: timeoutTrace r (n + 1)

/-- Concrete fixture: a branch already flagged default. -/
def bDefault : BranchObj :=
  [("id", Json.str "b1"), ("name", Json.str "main"), ("isDefault", Json.boolean true)]

/-- Concrete fixture: a not-yet-default branch whose fetched representation
carries an extra writable field (`revision`) beyond the PATCH whitelist. -/
def bFeature : BranchObj :=
  [("id", Json.str "b2"), ("name", Json.str "new"), ("isDefault", Json.boolean false),
   ("source", Json.str "SCM"), ("revision", Json.str "abc123")]

/-- Concrete fixture project holding the two branches. -/
def demoProject : Project := ⟨"proj1", "hello-java", [bDefault, bFeature]⟩

/-- Concrete fixture application. -/
def demoApplication : Application := ⟨"app1", "SRH-hello-java", [demoProject]⟩

/-- Concrete fixture portfolio. -/
def demoPortfolio : Portfolio := ⟨"pf1", "Portfolio", [demoApplication]⟩

/-- Concrete fixture remote environment. -/
def demoEnv : Env := ⟨[demoPortfolio]⟩

/-- Concrete fixture configuration with all five variables set. -/
def demoConfig : Config :=
  ⟨some "https://polaris.example", some "tok", some "SRH-hello-java",
   some "hello-java", some "new"⟩

theorem find_branch_trace (env : Env) (pid aid prid bn : String) :
    (find_branch_by_name env pid aid prid bn).2 = [Request.getBranches pid aid prid 100] := by
  cases h : lookupBranchList env pid aid prid <;>
    simp [find_branch_by_name, get_project_branches, h]

theorem findBranchLoop_mem_name (bn : String) (l : List BranchObj) (b : BranchObj)
    (h : findBranchLoop bn l = some b) :
    b ∈ l ∧ getStrField b "name" = some bn := by
  induction l with
  | nil => simp [findBranchLoop] at h
  | cons a rest ih =>
    by_cases ha : getStrField a "name" = some bn
    · simp [findBranchLoop, ha] at h
      subst h
      exact ⟨List.mem_cons_self a rest, ha⟩
    · simp [findBranchLoop, ha] at h
      rcases ih h with ⟨hmem, hname⟩
      exact ⟨List.mem_cons_of_mem a hmem, hname⟩

theorem findBranchLoop_eq_none (bn : String) (l : List BranchObj)
    (h : ∀ b ∈ l, getStrField b "name" ≠ some bn) :
    findBranchLoop bn l = none := by
  induction l with
  | nil => rfl
  | cons a rest ih =>
    have ha := h a (List.mem_cons_self a rest)
    simp [findBranchLoop, ha]
    exact ih (fun b hb => h b (List.mem_cons_of_mem a hb))

/-- C9: with any of the five required environment variables missing, the
program exits with code 1 and its action trace is empty, so no HTTP call
is ever attempted. -/
theorem missing_config_exits_before_any_request (cfg : Config) (env : Env)
    (h : cfg.server_url = none ∨ cfg.access_token = none ∨ cfg.application_name = none ∨
      cfg.project_name = none ∨ cfg.branch_name = none) :
    Polaris.main cfg env = (1, []) := by
  have hm : configMissing cfg = true := by
    rcases h with h | h | h | h | h <;> simp [configMissing, envFalsy, h]
  simp [Polaris.main, hm]

/-- Witness for the C9 theorem at a concrete configuration lacking
`POLARIS_SERVER_URL`. -/
theorem missing_config_exits_witness :
    Polaris.main ⟨none, some "tok", some "app", some "proj", some "branch"⟩ demoEnv = (1, []) :=
  missing_config_exits_before_any_request _ demoEnv (Or.inl rfl)

theorem dropWhileSlash_replicate (l : List Char) (n : Nat) :
    List.dropWhile (fun c => c = '/') (List.replicate n '/' ++ l) =
      List.dropWhile (fun c => c = '/') l := by
  induction n with
  | zero => simp
  | succ n ih => simp [List.replicate_succ, List.dropWhile_cons, ih]

theorem rstripSlash_append_slashes (s : String) (n : Nat) :
    rstripSlash (s ++ String.mk (List.replicate n '/')) = rstripSlash s := by
  simp [rstripSlash, String.data_append, List.reverse_append, List.reverse_replicate,
    dropWhileSlash_replicate]

/-- C10: the request URL is invariant under trailing slashes on the
configured server URL: appending any number of `'/'` characters to the
configured URL leaves the URL `_make_request` targets unchanged, for every
endpoint. -/
theorem requestUrl_trailing_slash_invariant (s endpoint : String) (n : Nat) :
    requestUrl (s ++ String.mk (List.replicate n '/')) endpoint = requestUrl s endpoint := by
  simp [requestUrl, urljoinRel, rstripSlash_append_slashes]

/-- C8: `get_project_branches` always issues exactly one branch-list GET,
with the fixed `_limit=100` page cap, and returns the empty list when the
request fails (modelled by the identifiers not resolving remotely). -/
theorem get_project_branches_single_page_empty_on_error (env : Env) (pid aid prid : String) :
    (get_project_branches env pid aid prid).2 = [Request.getBranches pid aid prid 100] ∧
    (lookupBranchList env pid aid prid = none → (get_project_branches env pid aid prid).1 = []) := by
  cases h : lookupBranchList env pid aid prid <;> simp [get_project_branches, h]

/-- Witness for the C8 theorem at identifiers that do not resolve: the
single capped request is issued and the result degrades to the empty
list. -/
theorem get_project_branches_error_witness :
    (get_project_branches demoEnv "absent" "a" "p").2 = [Request.getBranches "absent" "a" "p" 100] ∧
    (get_project_branches demoEnv "absent" "a" "p").1 = [] :=
  ⟨(get_project_branches_single_page_empty_on_error demoEnv "absent" "a" "p").1,
   (get_project_branches_single_page_empty_on_error demoEnv "absent" "a" "p").2 (by decide)⟩

/-- C7: `find_branch_by_name` scans the listed branches linearly for an
exact (hence case-sensitive, `String` equality) name match: a returned
branch is a listed branch carrying exactly the queried name, and when no
listed branch carries that exact name the result is `none`. -/
theorem find_branch_exact_match_spec (env : Env) (pid aid prid bn : String) :
    (∀ b, (find_branch_by_name env pid aid prid bn).1 = some b →
       b ∈ (get_project_branches env pid aid prid).1 ∧ getStrField b "name" = some bn) ∧
    ((∀ b ∈ (get_project_branches env pid aid prid).1, getStrField b "name" ≠ some bn) →
       (find_branch_by_name env pid aid prid bn).1 = none) := by
  constructor
  · intro b hb
    exact findBranchLoop_mem_name bn _ b hb
  · intro h
    exact findBranchLoop_eq_none bn _ h

/-- Witness for the C7 theorem: matching is case-sensitive, so querying
"Main" in a project whose only branches are named "main" and "new" finds
nothing. -/
theorem find_branch_case_sensitive_witness :
    (find_branch_by_name demoEnv "pf1" "app1" "proj1" "Main").1 = none :=
  (find_branch_exact_match_spec demoEnv "pf1" "app1" "proj1" "Main").2 (by decide)

/-- C3 counterexample: a 304 response has a non-2xx status code, yet
`_make_request` returns it as a success, because `raise_for_status` only
raises for 4xx/5xx codes; so not every non-2xx response halts the calling
operation. -/
theorem non_2xx_not_always_raised :
    (make_request (HttpOutcome.response ⟨304, [], "not modified"⟩)).1 =
      Except.ok ⟨304, [], "not modified"⟩ ∧ ¬ (304 / 100 = 2) :=
  ⟨rfl, by decide⟩

/-- C3 amended: any 4xx/5xx response is logged (status, headers, body) and
raised as an error halting the calling operation; a non-2xx response
outside 400–599 is logged as non-200 but returned as a success; a
network-level failure (timeout, connection refused, DNS failure) is
logged and propagated as an error. -/
theorem make_request_failure_contract (r : HttpResponse) (msg : String) :
    (400 ≤ r.status → r.status < 600 →
       make_request (HttpOutcome.response r) =
         (Except.error (ApiError.httpStatus r),
          [LogEntry.statusLine r.status, LogEntry.headerDump r.headers, LogEntry.bodyDump r.body,
           LogEntry.requestFailed, LogEntry.statusLine r.status, LogEntry.headerDump r.headers,
           LogEntry.bodyDump r.body])) ∧
    (r.status < 400 ∨ 600 ≤ r.status → (make_request (HttpOutcome.response r)).1 = Except.ok r) ∧
    make_request (HttpOutcome.networkFailure msg) =
      (Except.error (ApiError.network msg), [LogEntry.requestFailed]) := by
  refine ⟨?_, ?_, rfl⟩
  · intro h4 h6
    have hne : r.status ≠ 200 := by omega
    have hb : raiseForStatus r = true := by
      simp only [raiseForStatus, Bool.and_eq_true, decide_eq_true_eq]
      exact ⟨h4, h6⟩
    simp [make_request, hb, hne]
  · intro h
    have hb : raiseForStatus r = false := by
      simp only [raiseForStatus, Bool.and_eq_false_iff, decide_eq_false_iff_not]
      omega
    simp [make_request, hb]

/-- Witness for the C3 amended theorem at a concrete 404 response and a
concrete network failure. -/
theorem make_request_failure_witness :
    make_request (HttpOutcome.response ⟨404, [("k", "v")], "nf"⟩) =
      (Except.error (ApiError.httpStatus ⟨404, [("k", "v")], "nf"⟩),
       [LogEntry.statusLine 404, LogEntry.headerDump [("k", "v")], LogEntry.bodyDump "nf",
        LogEntry.requestFailed, LogEntry.statusLine 404, LogEntry.headerDump [("k", "v")],
        LogEntry.bodyDump "nf"]) ∧
    make_request (HttpOutcome.networkFailure "timeout") =
      (Except.error (ApiError.network "timeout"), [LogEntry.requestFailed]) :=
  ⟨(make_request_failure_contract ⟨404, [("k", "v")], "nf"⟩ "timeout").1 (by decide) (by decide),
   (make_request_failure_contract ⟨404, [("k", "v")], "nf"⟩ "timeout").2.2⟩

/-- C1 counterexample: the fetched representation of the fixture branch
carries a `revision` field, which is neither an identifier nor a
hypermedia link, yet the PATCH payload `set_default_branch` builds drops
it: the payload is a fixed whitelist, not the fetched representation minus
identifiers and links. -/
theorem patch_payload_drops_extra_field :
    lookupField bFeature "revision" = some (Json.str "abc123") ∧
    lookupField (buildPatchPayload bFeature "new") "revision" = none := by decide

/-- C1 amended: the PATCH payload consists exactly of the whitelisted
writable fields `name`, `description`, `source`, `autoDeleteSetting`,
`autoDeleteSettingsCustomized`, `branchRetentionPeriodSetting` (each
copied unchanged from the fetched representation when present there, with
a fixed default otherwise), plus `labelIds` copied unchanged when present;
`isDefault` is set to `true`; every other fetched field — identifiers and
links included — is absent from the payload. -/
theorem patch_payload_whitelist_spec (branch_data : BranchObj) (branch_name : String) :
    (∀ kv ∈ buildPatchPayload branch_data branch_name, kv.1 ∈ payloadKeys) ∧
    lookupField (buildPatchPayload branch_data branch_name) "isDefault" =
      some (Json.boolean true) ∧
    (∀ v, lookupField branch_data "name" = some v →
       lookupField (buildPatchPayload branch_data branch_name) "name" = some v) ∧
    (∀ v, lookupField branch_data "description" = some v →
       lookupField (buildPatchPayload branch_data branch_name) "description" = some v) ∧
    (∀ v, lookupField branch_data "source" = some v →
       lookupField (buildPatchPayload branch_data branch_name) "source" = some v) ∧
    (∀ v, lookupField branch_data "autoDeleteSetting" = some v →
       lookupField (buildPatchPayload branch_data branch_name) "autoDeleteSetting" = some v) ∧
    (∀ v, lookupField branch_data "autoDeleteSettingsCustomized" = some v →
       lookupField (buildPatchPayload branch_data branch_name) "autoDeleteSettingsCustomized" =
         some v) ∧
    (∀ v, lookupField branch_data "branchRetentionPeriodSetting" = some v →
       lookupField (buildPatchPayload branch_data branch_name) "branchRetentionPeriodSetting" =
         some v) ∧
    (∀ v, lookupField branch_data "labelIds" = some v →
       lookupField (buildPatchPayload branch_data branch_name) "labelIds" = some v) ∧
    (∀ k, k ∉ payloadKeys →
       lookupField (buildPatchPayload branch_data branch_name) k = none) := by
  cases hl : lookupField branch_data "labelIds" with
  | none =>
    refine ⟨?_, ?_, ?_, ?_, ?_, ?_, ?_, ?_, ?_, ?_⟩
    · intro kv hkv
      simp [buildPatchPayload, hl] at hkv
      rcases hkv with h | h | h | h | h | h | h <;> subst h <;> simp [payloadKeys]
    · simp [buildPatchPayload, hl, lookupField]
    · intro v hv; simp [buildPatchPayload, hl, lookupField, Json.getD, hv]
    · intro v hv; simp [buildPatchPayload, hl, lookupField, Json.getD, hv]
    · intro v hv; simp [buildPatchPayload, hl, lookupField, Json.getD, hv]
    · intro v hv; simp [buildPatchPayload, hl, lookupField, Json.getD, hv]
    · intro v hv; simp [buildPatchPayload, hl, lookupField, Json.getD, hv]
    · intro v hv; simp [buildPatchPayload, hl, lookupField, Json.getD, hv]
    · intro v hv; simp [hl] at hv
    · intro k hk
      simp [payloadKeys] at hk
      obtain ⟨h1, h2, h3, h4, h5, h6, h7, h8⟩ := hk
      simp [buildPatchPayload, hl, lookupField, Ne.symm h1, Ne.symm h2, Ne.symm h3,
        Ne.symm h4, Ne.symm h5, Ne.symm h6, Ne.symm h7]
  | some w =>
    refine ⟨?_, ?_, ?_, ?_, ?_, ?_, ?_, ?_, ?_, ?_⟩
    · intro kv hkv
      simp [buildPatchPayload, hl] at hkv
      rcases hkv with h | h | h | h | h | h | h | h <;> subst h <;> simp [payloadKeys]
    · simp [buildPatchPayload, hl, lookupField]
    · intro v hv; simp [buildPatchPayload, hl, lookupField, Json.getD, hv]
    · intro v hv; simp [buildPatchPayload, hl, lookupField, Json.getD, hv]
    · intro v hv; simp [buildPatchPayload, hl, lookupField, Json.getD, hv]
    · intro v hv; simp [buildPatchPayload, hl, lookupField, Json.getD, hv]
    · intro v hv; simp [buildPatchPayload, hl, lookupField, Json.getD, hv]
    · intro v hv; simp [buildPatchPayload, hl, lookupField, Json.getD, hv]
    · intro v hv
      obtain rfl := Option.some.inj hv
      simp [buildPatchPayload, hl, lookupField]
    · intro k hk
      simp [payloadKeys] at hk
      obtain ⟨h1, h2, h3, h4, h5, h6, h7, h8⟩ := hk
      simp [buildPatchPayload, hl, lookupField, Ne.symm h1, Ne.symm h2, Ne.symm h3,
        Ne.symm h4, Ne.symm h5, Ne.symm h6, Ne.symm h7, Ne.symm h8]

/-- Witness for the C1 amended theorem at the fixture branch: its fetched
`source` value rides through unchanged and `isDefault` is forced true. -/
theorem patch_payload_whitelist_witness :
    lookupField (buildPatchPayload bFeature "new") "source" = some (Json.str "SCM") ∧
    lookupField (buildPatchPayload bFeature "new") "isDefault" = some (Json.boolean true) :=
  ⟨(patch_payload_whitelist_spec bFeature "new").2.2.2.2.1 (Json.str "SCM") (by decide),
   (patch_payload_whitelist_spec bFeature "new").2.1⟩

theorem searchApplications_fst (pid pn : String) (apps : List Application) :
    (searchApplications pid pn apps).1 =
      (apps.flatMap (fun a =>
        (queryProjects a pn).map (fun p => FoundProject.mk pid a.id p))).head? := by
  induction apps with
  | nil => rfl
  | cons a rest ih =>
    cases hq : queryProjects a pn with
    | nil => simp [searchApplications, hq, ih]
    | cons p ps => simp [searchApplications, hq]

theorem searchPortfolios_fst (an pn : String) (pfs : List Portfolio) :
    (searchPortfolios an pn pfs).1 =
      (pfs.flatMap (fun pf =>
        (queryApplications pf an).flatMap (fun a =>
          (queryProjects a pn).map (fun p => FoundProject.mk pf.id a.id p)))).head? := by
  induction pfs with
  | nil => rfl
  | cons pf rest ih =>
    have hL := searchApplications_fst pf.id pn (queryApplications pf an)
    cases hin : (searchApplications pf.id pn (queryApplications pf an)).1 with
    | some f =>
      rw [hin] at hL
      simp only [searchPortfolios, hin, List.flatMap_cons, List.head?_append, ← hL]
      rfl
    | none =>
      rw [hin] at hL
      have hnil : (queryApplications pf an).flatMap (fun a =>
          (queryProjects a pn).map (fun p => FoundProject.mk pf.id a.id p)) = [] :=
        List.head?_eq_none_iff.mp hL.symm
      simp [searchPortfolios, hin, List.flatMap_cons, hnil, ih]

/-- C6: `find_project_by_name` returns exactly the first (portfolio,
application, project) match of the walk — within the 10-result pages the
filtered queries return — annotated with its parent identifiers: a
returned record names a real portfolio of the environment, a real
application inside it whose name matches exactly, and a project of that
application whose name matches exactly; and whenever no application/project
pair anywhere in the hierarchy matches both names, the result is `none`
rather than an error. -/
theorem find_project_first_match_spec (env : Env) (an pn : String) :
    (find_project_by_name env an pn).1 = firstMatchingProject env an pn ∧
    (∀ f, (find_project_by_name env an pn).1 = some f →
       f.project.name = pn ∧
       ∃ pf ∈ env.portfolios, pf.id = f.portfolioId ∧
         ∃ a ∈ pf.applications, a.id = f.applicationId ∧ a.name = an ∧
           f.project ∈ a.projects) ∧
    ((∀ pf ∈ env.portfolios, ∀ a ∈ pf.applications, a.name = an →
        ∀ p ∈ a.projects, p.name ≠ pn) →
      (find_project_by_name env an pn).1 = none) := by
  have hfst : (find_project_by_name env an pn).1 = firstMatchingProject env an pn := by
    simp [find_project_by_name, firstMatchingProject, matchingProjects,
      searchPortfolios_fst an pn env.portfolios]
  refine ⟨hfst, ?_, ?_⟩
  · intro f hf
    rw [hfst] at hf
    have hmem : f ∈ matchingProjects env an pn := by
      unfold firstMatchingProject at hf
      cases hM : matchingProjects env an pn with
      | nil => rw [hM] at hf; simp at hf
      | cons x xs =>
        rw [hM] at hf
        simp at hf
        subst hf
        exact List.mem_cons_self x xs
    rcases List.mem_flatMap.mp hmem with ⟨pf, hpf, hrest⟩
    rcases List.mem_flatMap.mp hrest with ⟨a, ha, hmap⟩
    rcases List.mem_map.mp hmap with ⟨p, hp, hfp⟩
    have ha2 : a ∈ pf.applications ∧ a.name = an := by
      have hsub := List.take_subset 10 (pf.applications.filter (fun a2 => a2.name = an)) ha
      have := List.mem_filter.mp hsub
      simpa using this
    have hp2 : p ∈ a.projects ∧ p.name = pn := by
      have hsub := List.take_subset 10 (a.projects.filter (fun p2 => p2.name = pn)) hp
      have := List.mem_filter.mp hsub
      simpa using this
    subst hfp
    exact ⟨hp2.2, pf, hpf, rfl, a, ha2.1, rfl, ha2.2, hp2.1⟩
  · intro h
    rw [hfst]
    unfold firstMatchingProject
    rw [List.head?_eq_none_iff]
    unfold matchingProjects
    rw [List.flatMap_eq_nil_iff]
    intro pf hpf
    rw [List.flatMap_eq_nil_iff]
    intro a ha
    have ha2 : a ∈ pf.applications ∧ a.name = an := by
      have hsub := List.take_subset 10 (pf.applications.filter (fun a2 => a2.name = an)) ha
      have := List.mem_filter.mp hsub
      simpa using this
    have hq : queryProjects a pn = [] := by
      unfold queryProjects
      have : a.projects.filter (fun p2 => p2.name = pn) = [] := by
        rw [List.filter_eq_nil_iff]
        intro p hp
        simpa using h pf hpf a ha2.1 ha2.2 p hp
      rw [this]
      rfl
    rw [hq]
    rfl

/-- Witness for the C6 theorem at the fixture environment: searching for a
project name absent at every level returns "not found". -/
theorem find_project_not_found_witness :
    (find_project_by_name demoEnv "SRH-hello-java" "absent-project").1 = none :=
  (find_project_first_match_spec demoEnv "SRH-hello-java" "absent-project").2.2 (by decide)

theorem waitLoop_succ (env : Env) (pid aid prid bn : String)
    (habs : (find_branch_by_name env pid aid prid bn).1 = none) (m : Nat) :
    waitLoop env pid aid prid bn (m + 1) =
      if m = 0 then (false, [Action.req (Request.getBranches pid aid prid 100)])
      else ((waitLoop env pid aid prid bn m).1,
        Action.req (Request.getBranches pid aid prid 100) ::
          Action.sleep 30 :: (waitLoop env pid aid prid bn m).2) := by
  by_cases hm : m = 0 <;> simp [waitLoop, habs, find_branch_trace, hm]

theorem waitLoop_absent (env : Env) (pid aid prid bn : String)
    (habs : (find_branch_by_name env pid aid prid bn).1 = none) :
    ∀ n, waitLoop env pid aid prid bn n =
      (false, timeoutTrace (Request.getBranches pid aid prid 100) n) := by
  intro n
  induction n with
  | zero => rfl
  | succ m ih =>
    rw [waitLoop_succ env pid aid prid bn habs m]
    cases m with
    | zero => simp [timeoutTrace]
    | succ k => simp [ih, timeoutTrace]

theorem waitLoop_found (env : Env) (pid aid prid bn : String) (b : BranchObj)
    (hfb : (find_branch_by_name env pid aid prid bn).1 = some b) :
    ∀ n, waitLoop env pid aid prid bn (n + 1) =
      (true, [Action.req (Request.getBranches pid aid prid 100)]) := by
  intro n
  simp [waitLoop, hfb, find_branch_trace]

theorem timeoutTrace_req_count (r : Request) (hr : (Action.req r).isBranchListGet = true) :
    ∀ n, (timeoutTrace r n).countP Action.isBranchListGet = n := by
  intro n
  induction n with
  | zero => rfl
  | succ m ih =>
    cases m with
    | zero => simp [timeoutTrace, List.countP_cons, hr]
    | succ k =>
      simp only [timeoutTrace, List.countP_cons, hr] at ih ⊢
      simp [Action.isBranchListGet] at ih ⊢
      omega

theorem timeoutTrace_sleep_count (r : Request) :
    ∀ n, (timeoutTrace r n).countP (fun a => a = Action.sleep 30) = n - 1 := by
  intro n
  induction n with
  | zero => rfl
  | succ m ih =>
    cases m with
    | zero => simp [timeoutTrace, List.countP_cons]
    | succ k =>
      simp only [timeoutTrace, List.countP_cons] at ih ⊢
      simp at ih ⊢
      omega

/-- C4: when the target branch never appears, the poller issues exactly
`max_attempts = max_wait_minutes * 2` branch-lookup requests, separated by
30-second sleeps (one fewer sleep than lookups), and returns `false`
rather than raising; the orchestration, which polls with the default
30-minute budget (60 attempts), then exits with code 1. -/
theorem wait_timeout_spec (env : Env) (found : FoundProject) (bn : String) (mw : Nat)
    (hids : idsTruthy found.portfolioId found.applicationId found.project.id = true)
    (habs : (find_branch_by_name env found.portfolioId found.applicationId
      found.project.id bn).1 = none) :
    wait_for_scan_completion env found bn mw =
      (false, timeoutTrace
        (Request.getBranches found.portfolioId found.applicationId found.project.id 100)
        (mw * 2)) ∧
    (wait_for_scan_completion env found bn mw).2.countP Action.isBranchListGet = mw * 2 ∧
    (wait_for_scan_completion env found bn mw).2.countP (fun a => a = Action.sleep 30) =
      mw * 2 - 1 ∧
    (∀ (su tok an pn : String) (tr1 : List Request),
       su ≠ "" → tok ≠ "" → an ≠ "" → pn ≠ "" → bn ≠ "" →
       find_project_by_name env an pn = (some found, tr1) →
       Polaris.main ⟨some su, some tok, some an, some pn, some bn⟩ env =
         (1, tr1.map Action.req ++ timeoutTrace
           (Request.getBranches found.portfolioId found.applicationId found.project.id 100)
           60)) := by
  have hw : wait_for_scan_completion env found bn mw =
      (false, timeoutTrace
        (Request.getBranches found.portfolioId found.applicationId found.project.id 100)
        (mw * 2)) := by
    simp [wait_for_scan_completion, hids, waitLoop_absent env _ _ _ bn habs]
  have hw30 : wait_for_scan_completion env found bn 30 =
      (false, timeoutTrace
        (Request.getBranches found.portfolioId found.applicationId found.project.id 100)
        60) := by
    simp [wait_for_scan_completion, hids, waitLoop_absent env _ _ _ bn habs]
  refine ⟨hw, ?_, ?_, ?_⟩
  · rw [hw]
    have hr : (Action.req (Request.getBranches found.portfolioId found.applicationId
        found.project.id 100)).isBranchListGet = true := rfl
    exact timeoutTrace_req_count _ hr (mw * 2)
  · rw [hw]
    exact timeoutTrace_sleep_count _ (mw * 2)
  · intro su tok an pn tr1 hsu htok han hpn hbn hfp
    have hcm : configMissing ⟨some su, some tok, some an, some pn, some bn⟩ = false := by
      simp [configMissing, envFalsy, hsu, htok, han, hpn, hbn]
    simp [Polaris.main, hcm, hfp, hids, hw30]

/-- Witness for the C4 theorem: at the fixture environment, polling for a
branch named "gone" with a 1-minute budget makes exactly two lookup
requests separated by one 30-second sleep and returns `false`. -/
theorem wait_timeout_witness :
    wait_for_scan_completion demoEnv ⟨"pf1", "app1", demoProject⟩ "gone" 1 =
      (false, [Action.req (Request.getBranches "pf1" "app1" "proj1" 100),
               Action.sleep 30,
               Action.req (Request.getBranches "pf1" "app1" "proj1" 100)]) :=
  (wait_timeout_spec demoEnv ⟨"pf1", "app1", demoProject⟩ "gone" 1 (by decide) (by decide)).1

theorem searchApplications_no_patch (pid pn : String) (apps : List Application) :
    ∀ r ∈ (searchApplications pid pn apps).2, (Action.req r).isPatch = false := by
  induction apps with
  | nil => intro r hr; simp [searchApplications] at hr
  | cons a rest ih =>
    intro r hr
    cases hq : queryProjects a pn with
    | nil =>
      simp [searchApplications, hq] at hr
      rcases hr with hr | hr
      · subst hr; rfl
      · exact ih r hr
    | cons p ps =>
      simp [searchApplications, hq] at hr
      subst hr; rfl

theorem searchPortfolios_no_patch (an pn : String) (pfs : List Portfolio) :
    ∀ r ∈ (searchPortfolios an pn pfs).2, (Action.req r).isPatch = false := by
  induction pfs with
  | nil => intro r hr; simp [searchPortfolios] at hr
  | cons pf rest ih =>
    intro r hr
    cases hin : (searchApplications pf.id pn (queryApplications pf an)).1 with
    | some f =>
      simp [searchPortfolios, hin] at hr
      rcases hr with hr | hr
      · subst hr; rfl
      · exact searchApplications_no_patch pf.id pn (queryApplications pf an) r hr
    | none =>
      simp [searchPortfolios, hin] at hr
      rcases hr with hr | hr | hr
      · subst hr; rfl
      · exact searchApplications_no_patch pf.id pn (queryApplications pf an) r hr
      · exact ih r hr

theorem find_project_no_patch (env : Env) (an pn : String) :
    ∀ r ∈ (find_project_by_name env an pn).2, (Action.req r).isPatch = false := by
  intro r hr
  simp [find_project_by_name] at hr
  rcases hr with hr | hr
  · subst hr; rfl
  · exact searchPortfolios_no_patch an pn env.portfolios r hr

/-- C5: when the resolved target branch already carries
`isDefault = true`, the orchestration exits with code 0, its whole trace
being the project resolution plus the two branch-list lookups, and no
PATCH request is ever issued. -/
theorem already_default_exits_zero_without_patch (env : Env) (found : FoundProject)
    (b : BranchObj) (su tok an pn bn : String) (tr1 : List Request)
    (hsu : su ≠ "") (htok : tok ≠ "") (han : an ≠ "") (hpn : pn ≠ "") (hbn : bn ≠ "")
    (hfp : find_project_by_name env an pn = (some found, tr1))
    (hids : idsTruthy found.portfolioId found.applicationId found.project.id = true)
    (hfb : (find_branch_by_name env found.portfolioId found.applicationId
      found.project.id bn).1 = some b)
    (hdef : getBoolFieldD b "isDefault" false = true) :
    Polaris.main ⟨some su, some tok, some an, some pn, some bn⟩ env =
      (0, tr1.map Action.req ++
        [Action.req (Request.getBranches found.portfolioId found.applicationId
           found.project.id 100),
         Action.req (Request.getBranches found.portfolioId found.applicationId
           found.project.id 100)]) ∧
    ∀ a ∈ (Polaris.main ⟨some su, some tok, some an, some pn, some bn⟩ env).2,
      a.isPatch = false := by
  have hcm : configMissing ⟨some su, some tok, some an, some pn, some bn⟩ = false := by
    simp [configMissing, envFalsy, hsu, htok, han, hpn, hbn]
  have hw : wait_for_scan_completion env found bn 30 =
      (true, [Action.req (Request.getBranches found.portfolioId found.applicationId
        found.project.id 100)]) := by
    simp [wait_for_scan_completion, hids]
    exact waitLoop_found env _ _ _ bn b hfb 59
  have hmain : Polaris.main ⟨some su, some tok, some an, some pn, some bn⟩ env =
      (0, tr1.map Action.req ++
        [Action.req (Request.getBranches found.portfolioId found.applicationId
           found.project.id 100),
         Action.req (Request.getBranches found.portfolioId found.applicationId
           found.project.id 100)]) := by
    simp [Polaris.main, hcm, hfp, hids, hw, hfb, hdef, find_branch_trace]
  refine ⟨hmain, ?_⟩
  rw [hmain]
  intro a ha
  simp at ha
  rcases ha with ⟨r, hr, hra⟩ | ha
  · rw [← hra]
    have hnp := find_project_no_patch env an pn
    rw [hfp] at hnp
    exact hnp r hr
  · subst ha; rfl

/-- Witness for the C5 theorem: the fixture branch "main" is already the
default, so the run exits 0 after five GETs and no PATCH. -/
theorem already_default_witness :
    Polaris.main ⟨some "https://polaris.example", some "tok", some "SRH-hello-java",
        some "hello-java", some "main"⟩ demoEnv =
      (0, [Action.req Request.getPortfolios,
           Action.req (Request.getApplications "pf1" "SRH-hello-java" 10),
           Action.req (Request.getProjects "pf1" "app1" "hello-java" 10),
           Action.req (Request.getBranches "pf1" "app1" "proj1" 100),
           Action.req (Request.getBranches "pf1" "app1" "proj1" 100)]) :=
  (already_default_exits_zero_without_patch demoEnv ⟨"pf1", "app1", demoProject⟩ bDefault
    "https://polaris.example" "tok" "SRH-hello-java" "hello-java" "main"
    [Request.getPortfolios, Request.getApplications "pf1" "SRH-hello-java" 10,
     Request.getProjects "pf1" "app1" "hello-java" 10]
    (by decide) (by decide) (by decide) (by decide) (by decide)
    (by decide) (by decide) (by decide) (by decide)).1

/-- C2 counterexample: on a configuration naming an existing project and
an existing not-yet-default branch visible on the first poll attempt, the
run exits 0 but performs TWO branch-list GETs — one inside the poller and
a second when `main` re-resolves the branch — not exactly one as claimed. -/
theorem happy_path_two_branch_list_gets :
    (Polaris.main demoConfig demoEnv).1 = 0 ∧
    (Polaris.main demoConfig demoEnv).2.countP Action.isBranchListGet = 2 := by decide

/-- C2 amended: on a configuration naming an existing project and an
existing not-yet-default branch, with the branch visible on the first poll
attempt, the run performs exactly one GET for portfolios, one GET for
applications, one GET for projects, two branch-list GETs (the poll plus
the re-resolution), one branch GET, and one PATCH, then exits with
code 0. -/
theorem happy_path_trace_spec
    (su tok an pn bn pfId pfName aid prId bid : String) (bd : BranchObj)
    (hsu : su ≠ "") (htok : tok ≠ "") (han : an ≠ "") (hpn : pn ≠ "") (hbn : bn ≠ "")
    (hpf : pfId ≠ "") (haid : aid ≠ "") (hprid : prId ≠ "")
    (hname : getStrField bd "name" = some bn)
    (hid : getStrField bd "id" = some bid)
    (hnd : getBoolFieldD bd "isDefault" false = false) :
    Polaris.main ⟨some su, some tok, some an, some pn, some bn⟩
        ⟨[⟨pfId, pfName, [⟨aid, an, [⟨prId, pn, [bd]⟩]⟩]⟩]⟩ =
      (0, [Action.req Request.getPortfolios,
           Action.req (Request.getApplications pfId an 10),
           Action.req (Request.getProjects pfId aid pn 10),
           Action.req (Request.getBranches pfId aid prId 100),
           Action.req (Request.getBranches pfId aid prId 100),
           Action.req (Request.getBranch pfId aid prId bid),
           Action.req (Request.patchBranch pfId aid prId bid
             (buildPatchPayload bd bn))]) := by
  set env : Env := ⟨[⟨pfId, pfName, [⟨aid, an, [⟨prId, pn, [bd]⟩]⟩]⟩]⟩ with henv
  have hcm : configMissing ⟨some su, some tok, some an, some pn, some bn⟩ = false := by
    simp [configMissing, envFalsy, hsu, htok, han, hpn, hbn]
  have hfp : find_project_by_name env an pn =
      (some ⟨pfId, aid, ⟨prId, pn, [bd]⟩⟩,
       [Request.getPortfolios, Request.getApplications pfId an 10,
        Request.getProjects pfId aid pn 10]) := by
    simp [henv, find_project_by_name, searchPortfolios, searchApplications,
      queryApplications, queryProjects]
  have hids : idsTruthy pfId aid prId = true := by
    simp [idsTruthy, hpf, haid, hprid]
  have hlb : lookupBranchList env pfId aid prId = some [bd] := by
    simp [henv, lookupBranchList]
  have hfb : find_branch_by_name env pfId aid prId bn =
      (some bd, [Request.getBranches pfId aid prId 100]) := by
    simp [find_branch_by_name, get_project_branches, hlb, findBranchLoop, hname]
  have hw : wait_for_scan_completion env ⟨pfId, aid, ⟨prId, pn, [bd]⟩⟩ bn 30 =
      (true, [Action.req (Request.getBranches pfId aid prId 100)]) := by
    simp only [wait_for_scan_completion]
    rw [if_pos hids]
    exact waitLoop_found env pfId aid prId bn bd (by rw [hfb]) 59
  have hsd : set_default_branch env pfId aid prId bid bn =
      (true, [Request.getBranch pfId aid prId bid,
              Request.patchBranch pfId aid prId bid (buildPatchPayload bd bn)]) := by
    simp [set_default_branch, lookupBranchById, hlb, hid]
  simp [Polaris.main, hcm, hfp, hids, hw, hfb, hnd, hid, hsd]

/-- Witness for the C2 amended theorem at concrete names and identifiers
distinct from the fixture environment. -/
theorem happy_path_trace_witness :
    Polaris.main ⟨some "https://srv", some "t0", some "appName", some "projName",
        some "feature"⟩
        ⟨[⟨"P1", "Folio", [⟨"A1", "appName", [⟨"R1", "projName",
          [[("id", Json.str "B1"), ("name", Json.str "feature"),
            ("isDefault", Json.boolean false)]]⟩]⟩]⟩]⟩ =
      (0, [Action.req Request.getPortfolios,
           Action.req (Request.getApplications "P1" "appName" 10),
           Action.req (Request.getProjects "P1" "A1" "projName" 10),
           Action.req (Request.getBranches "P1" "A1" "R1" 100),
           Action.req (Request.getBranches "P1" "A1" "R1" 100),
           Action.req (Request.getBranch "P1" "A1" "R1" "B1"),
           Action.req (Request.patchBranch "P1" "A1" "R1" "B1"
             (buildPatchPayload
               [("id", Json.str "B1"), ("name", Json.str "feature"),
                ("isDefault", Json.boolean false)] "feature"))]) :=
  happy_path_trace_spec "https://srv" "t0" "appName" "projName" "feature"
    "P1" "Folio" "A1" "R1" "B1"
    [("id", Json.str "B1"), ("name", Json.str "feature"), ("isDefault", Json.boolean false)]
    (by decide) (by decide) (by decide) (by decide) (by decide)
    (by decide) (by decide) (by decide) (by decide) (by decide) (by decide)

end Polaris
